import Mathlib

/-!
Verification of the atomic cross-chain transfer subsystem (Import/Export
transactions) of the coreth-based execution engine.

Shallow embedding conventions:
* `ids.ID` (32-byte hashes), `common.Address` (20-byte addresses) and asset
  identifiers are modelled as `Nat`.  Fixed-width byte arrays compare
  lexicographically, which coincides with the numeric order of their
  big-endian value, so `Nat` order is order-isomorphic to `bytes.Compare`.
* `uint64` arithmetic is `Nat` with explicit checks against `2^64` where the
  source uses the checked `math.Add64` / `math.Mul64` helpers.
* fallible Go functions returning `error` become `Except Err _`; in-place
  mutation of the ledger (`state.StateDB`) becomes explicit state passing,
  and a call that errors after partial mutation returns the partially
  mutated state (`StateDB × Option Err`), matching Go's in-place writes.
* external collaborators (shared memory, codec, signature recovery, the
  conflict scan) are oracle function fields of the `VM` structure.
-/

namespace Coreth

/-- Distinct named error conditions of the atomic tx pipeline
(from the `err...` variables of the evm package and the wrapped
`fmt.Errorf` failures). -/
inductive Err where
  | errNilTx
  | errNoImportInputs
  | errNoExportOutputs
  | errWrongNetworkID
  | errWrongBlockchainID
  | errNoEVMOutputs
  | errWrongChainID
  | errInputsNotSortedUnique
  | errOutputsNotSortedUnique
  | errOutputsNotSorted
  /-- "EVM Output failed verification: %w" -/
  | evmOutputFailed (e : Err)
  /-- "atomic input failed verification: %w" -/
  | atomicInputFailed (e : Err)
  | errNoValueOutput
  | errNoValueInput
  | errSigIndicesNotSortedUnique
  | errNilBaseFee
  | errFeeOverflow
  /-- overflow reported by `math.Add64` / `math.Mul64` -/
  | errOverflow
  | errInsufficientFunds
  | errInvalidNonce
  /-- "import tx flow check failed due to: %w" -/
  | importTxFlowCheckFailed (e : Err)
  /-- "export tx flow check failed due to: %w" -/
  | exportTxFlowCheckFailed (e : Err)
  /-- flow checker: produced exceeds consumed for some asset -/
  | errFlowInsufficientFunds
  /-- flow checker: a checked addition overflowed -/
  | errFlowOverflow
  /-- "... mismatched number of inputs/credentials (%d vs. %d)" -/
  | credentialCountMismatch (nIn nCred : Nat)
  | errAssetIDMismatch
  /-- "failed to fetch import UTXOs from %s due to: %w" -/
  | fetchUTXOsFailed (e : Err)
  /-- "failed to unmarshal UTXO: %w" -/
  | unmarshalUTXOFailed (e : Err)
  /-- "import tx transfer failed verification: %w" -/
  | importTxTransferFailed (e : Err)
  /-- conflicting atomic inputs found by `vm.conflicts` -/
  | errConflictingAtomicInputs
  /-- "expected *secp256k1fx.Credential but got %T" -/
  | expectedSecpCredential
  /-- "expected one signature for EVM Input Credential, but found: %d" -/
  | expectedOneSignature (n : Nat)
  /-- "expected *crypto.PublicKeySECP256K1R but got %T" -/
  | expectedSecpPublicKey
  | errPublicKeySignatureMismatch
  /-- an anonymous error produced by an external collaborator -/
  | external (n : Nat)
  deriving DecidableEq, Repr

/-- 2^64, the exclusive upper bound of Go's uint64. -/
def UINT64LIMIT : Nat := 2 ^ 64

/-- Model of `math.Add64`: checked uint64 addition. -/
def add64 (a b : Nat) : Except Err Nat :=
  if a + b < UINT64LIMIT then .ok (a + b) else .error .errOverflow

/-- Model of `math.Mul64`: checked uint64 multiplication. -/
def mul64 (a b : Nat) : Except Err Nat :=
  if a * b < UINT64LIMIT then .ok (a * b) else .error .errOverflow

/-- Model of `params.TxBytesGas`: gas per serialized byte. -/
def txBytesGas : Nat := 1

/-- Model of `params.AtomicTxBaseCost`: fixed base gas of an atomic transaction
(pinned by TestImportTxGasCost: 11230 - 1230). -/
def atomicTxBaseCost : Nat := 10000

/-- Model of `params.AxiaAtomicTxFee`: the flat atomic transaction fee
(pinned by TestNewImportTx: 1000000). -/
def axiaAtomicTxFee : Nat := 1000000

/-- Model of `secp256k1fx.CostPerSignature`. -/
def costPerSignature : Nat := 1000

/-- Model of `x2cRate`: the fixed multiplier converting the native asset's base unit
(nAXC) into the ledger's unit (wei), 10^9. -/
def x2cRate : Nat := 1000000000

/-- Model of `constants.PlatformChainID`: the all-zero chain ID of the network's
staking/governance chain. -/
def platformChainID : Nat := 0

/-- Model of `snow.Context`: the chain context relevant to atomic tx verification.
`peerChains` models the registry consulted by the external
`verify.SameSubnet` / `verify.SameAllychain` checks. -/
structure Ctx where
  networkID : Nat
  chainID : Nat
  swapChainID : Nat
  axcAssetID : Nat
  peerChains : List Nat
  deriving Repr

/-- Modelled from the spec: `verify.SameSubnet`/`verify.SameAllychain`
(external to src/) accept "any non-self peer chain": the chain must be a
registered peer chain and must not be this chain's own ID. -/
def sameAllychain (ctx : Ctx) (chainID : Nat) : Bool :=
  chainID != ctx.chainID && ctx.peerChains.contains chainID

/-- Model of `params.Rules`: flat feature-flag record of the active upgrade phases. -/
structure Rules where
  isApricotPhase1 : Bool
  isApricotPhase2 : Bool
  isApricotPhase3 : Bool
  isApricotPhase5 : Bool
  deriving DecidableEq, Repr

/-- Model of `EVMOutput`: account-based output `{address, amount, assetID}`. -/
structure EVMOutput where
  address : Nat
  amount : Nat
  assetID : Nat
  deriving DecidableEq, Repr

/-- Model of `EVMInput`: account-based input `{address, amount, assetID, nonce}`. -/
structure EVMInput where
  address : Nat
  amount : Nat
  assetID : Nat
  nonce : Nat
  deriving DecidableEq, Repr

/-- Model of `secp256k1fx.TransferInput`: amount plus signature indices. -/
structure TransferIn where
  amt : Nat
  sigIndices : List Nat
  deriving DecidableEq, Repr

/-- Model of `avax.TransferableInput`: a UTXO reference `(txID, outputIndex)` with an
asset ID and a secp256k1fx transfer input. -/
structure TransferableInput where
  txID : Nat
  outputIndex : Nat
  assetID : Nat
  input : TransferIn
  deriving DecidableEq, Repr

/-- Model of `avax.TransferableOutput` with a `secp256k1fx.TransferOutput` payload. -/
structure TransferableOutput where
  assetID : Nat
  amt : Nat
  locktime : Nat
  threshold : Nat
  addrs : List Nat
  deriving DecidableEq, Repr

/-- Model of `UnsignedImportTx`.  `unsignedBytes` models the serialized bytes held in
the embedded `axc.Metadata` (`tx.UnsignedBytes()`), produced by the opaque
codec. -/
structure ImportTx where
  networkID : Nat
  blockchainID : Nat
  sourceChain : Nat
  importedInputs : List TransferableInput
  outs : List EVMOutput
  unsignedBytes : List Nat
  deriving DecidableEq, Repr

/-- Model of `UnsignedExportTx`. -/
structure ExportTx where
  networkID : Nat
  blockchainID : Nat
  destinationChain : Nat
  ins : List EVMInput
  exportedOutputs : List TransferableOutput
  unsignedBytes : List Nat
  deriving DecidableEq, Repr

/-- Modelled from the spec: `EVMOutput.Verify` (coreth `tx.go`, not in src/)
rejects a zero-value output, as pinned by the "invalid EVMOutput fails
verification" case of TestImportTxVerify. -/
def evmOutputVerify (o : EVMOutput) : Except Err Unit :=
  if o.amount == 0 then .error .errNoValueOutput else .ok ()

/-- Modelled from the spec: `EVMInput.Verify` (coreth `tx.go`, not in src/)
rejects a zero-value input. -/
def evmInputVerify (i : EVMInput) : Except Err Unit :=
  if i.amount == 0 then .error .errNoValueInput else .ok ()

/-- Model of `List` strictly-increasing check used for signature indices. -/
def natListSortedUnique : List Nat → Bool
  | [] => true
  | [_] => true
  | a :: b :: rest => a < b && natListSortedUnique (b :: rest)

/-- Modelled from the spec: external `secp256k1fx.TransferInput.Verify`
(zero-value input or unsorted/duplicate signature indices are invalid). -/
def transferInVerify (t : TransferIn) : Except Err Unit :=
  if t.amt == 0 then .error .errNoValueInput
  else if !natListSortedUnique t.sigIndices then .error .errSigIndicesNotSortedUnique
  else .ok ()

/-- External `avax.TransferableInput.Verify`: defers to the inner input. -/
def transferableInputVerify (i : TransferableInput) : Except Err Unit :=
  transferInVerify i.input

/-- Modelled from the spec: external `TransferableOutput.Verify`
(zero-value output invalid). -/
def transferableOutputVerify (o : TransferableOutput) : Except Err Unit :=
  if o.amt == 0 then .error .errNoValueOutput else .ok ()

/-- Model of `secp256k1fx.TransferInput.Cost`: `numSigs × CostPerSignature`,
overflow-checked. -/
def transferInCost (t : TransferIn) : Except Err Nat :=
  mul64 t.sigIndices.length costPerSignature

/-- Canonical strict order on `EVMOutput`s: `(address, assetID)`
lexicographic (coreth `innerSortEVMOutputs.Less`, not in src/; modelled
from the spec's canonical key `(address bytes, assetID bytes)`). -/
def evmOutputLt (a b : EVMOutput) : Bool :=
  a.address < b.address || (a.address == b.address && a.assetID < b.assetID)

/-- Model of `IsSortedEVMOutputs`: no adjacent pair is out of order
(`sort.IsSorted`; duplicates permitted). -/
def isSortedEVMOutputs : List EVMOutput → Bool
  | [] => true
  | [_] => true
  | a :: b :: rest => !evmOutputLt b a && isSortedEVMOutputs (b :: rest)

/-- Model of `IsSortedAndUniqueEVMOutputs`: adjacent pairs strictly increasing. -/
def isSortedAndUniqueEVMOutputs : List EVMOutput → Bool
  | [] => true
  | [_] => true
  | a :: b :: rest => evmOutputLt a b && isSortedAndUniqueEVMOutputs (b :: rest)

/-- Canonical strict order on `EVMInput`s: `(address, assetID)`
lexicographic. -/
def evmInputLt (a b : EVMInput) : Bool :=
  a.address < b.address || (a.address == b.address && a.assetID < b.assetID)

/-- Model of `IsSortedAndUniqueEVMInputs`. -/
def isSortedAndUniqueEVMInputs : List EVMInput → Bool
  | [] => true
  | [_] => true
  | a :: b :: rest => evmInputLt a b && isSortedAndUniqueEVMInputs (b :: rest)

/-- External `avax` order on `TransferableInput`s: by UTXO identity
`(txID, outputIndex)`. -/
def transferableInputLt (a b : TransferableInput) : Bool :=
  a.txID < b.txID || (a.txID == b.txID && a.outputIndex < b.outputIndex)

/-- External `avax.IsSortedAndUniqueTransferableInputs`. -/
def isSortedAndUniqueTransferableInputs : List TransferableInput → Bool
  | [] => true
  | [_] => true
  | a :: b :: rest => transferableInputLt a b && isSortedAndUniqueTransferableInputs (b :: rest)

/-- Modelled from the spec: external `avax.IsSortedTransferableOutputs`
orders outputs by their canonical serialized bytes; modelled as the
lexicographic order on the serialized fields. -/
def transferableOutputLt (a b : TransferableOutput) : Bool :=
  a.assetID < b.assetID ||
    (a.assetID == b.assetID &&
      (a.locktime < b.locktime ||
        (a.locktime == b.locktime &&
          (a.amt < b.amt ||
            (a.amt == b.amt && decide (a.addrs < b.addrs))))))

/-- External `avax.IsSortedTransferableOutputs` (sorted, duplicates
permitted). -/
def isSortedTransferableOutputs : List TransferableOutput → Bool
  | [] => true
  | [_] => true
  | a :: b :: rest => !transferableOutputLt b a && isSortedTransferableOutputs (b :: rest)

/-- The per-output loop of `UnsignedImportTx.Verify`: the first failing
`out.Verify()` is returned wrapped in "EVM Output failed verification". -/
def verifyImportOuts : List EVMOutput → Except Err Unit
  | [] => .ok ()
  | o :: rest =>
    match evmOutputVerify o with
    | .error e => .error (.evmOutputFailed e)
    | .ok () => verifyImportOuts rest

/-- The per-input loop of `UnsignedImportTx.Verify`: the first failing
`in.Verify()` is returned wrapped in "atomic input failed verification". -/
def verifyImportIns : List TransferableInput → Except Err Unit
  | [] => .ok ()
  | i :: rest =>
    match transferableInputVerify i with
    | .error e => .error (.atomicInputFailed e)
    | .ok () => verifyImportIns rest

/-- Model of `UnsignedImportTx.Verify` (src/peer/waiting_handler.go:136-192).
A Go nil receiver is modelled by the `Option`'s `none` case. -/
def importTxVerify (otx : Option ImportTx) (ctx : Ctx) (rules : Rules) : Except Err Unit :=
  match otx with
  | none => .error .errNilTx
  | some tx =>
    if tx.importedInputs.isEmpty then .error .errNoImportInputs
    else if tx.networkID ≠ ctx.networkID then .error .errWrongNetworkID
    else if ctx.chainID ≠ tx.blockchainID then .error .errWrongBlockchainID
    else if rules.isApricotPhase3 ∧ tx.outs.isEmpty then .error .errNoEVMOutputs
    else if rules.isApricotPhase5 ∧ ¬sameAllychain ctx tx.sourceChain then
      .error .errWrongChainID
    else if ¬rules.isApricotPhase5 ∧ tx.sourceChain ≠ ctx.swapChainID then
      .error .errWrongChainID
    else
      match verifyImportOuts tx.outs with
      | .error e => .error e
      | .ok () =>
        match verifyImportIns tx.importedInputs with
        | .error e => .error e
        | .ok () =>
          if ¬isSortedAndUniqueTransferableInputs tx.importedInputs then
            .error .errInputsNotSortedUnique
          else if rules.isApricotPhase2 then
            if ¬isSortedAndUniqueEVMOutputs tx.outs then .error .errOutputsNotSortedUnique
            else .ok ()
          else if rules.isApricotPhase1 then
            if ¬isSortedEVMOutputs tx.outs then .error .errOutputsNotSorted
            else .ok ()
          else .ok ()

/-- Turn a check result into an optional failure. -/
def toCheck : Except Err Unit → Option Err
  | .ok () => none
  | .error e => some e

/-- First failing check of an ordered check list wins; `ok` if none fail. -/
def firstFailure : List (Option Err) → Except Err Unit
  | [] => .ok ()
  | none :: rest => firstFailure rest
  | some e :: _ => .error e

/-- The ordered check list of `UnsignedImportTx.Verify` as the spec words it
(§4.4): non-empty imported inputs → network ID → blockchain ID →
(output-mandatory phase) outputs non-empty → source-chain legality →
per-output verify → per-input verify → input sort/uniqueness → phase-gated
output sort policy. -/
def importVerifyChecks (tx : ImportTx) (ctx : Ctx) (rules : Rules) : List (Option Err) :=
  [ if tx.importedInputs.isEmpty then some .errNoImportInputs else none,
    if tx.networkID ≠ ctx.networkID then some .errWrongNetworkID else none,
    if ctx.chainID ≠ tx.blockchainID then some .errWrongBlockchainID else none,
    if rules.isApricotPhase3 ∧ tx.outs.isEmpty then some .errNoEVMOutputs else none,
    if rules.isApricotPhase5 then
      (if sameAllychain ctx tx.sourceChain then none else some .errWrongChainID)
    else
      (if tx.sourceChain = ctx.swapChainID then none else some .errWrongChainID),
    toCheck (verifyImportOuts tx.outs),
    toCheck (verifyImportIns tx.importedInputs),
    if isSortedAndUniqueTransferableInputs tx.importedInputs then none
      else some .errInputsNotSortedUnique,
    if rules.isApricotPhase2 then
      (if isSortedAndUniqueEVMOutputs tx.outs then none else some .errOutputsNotSortedUnique)
    else if rules.isApricotPhase1 then
      (if isSortedEVMOutputs tx.outs then none else some .errOutputsNotSorted)
    else none ]

/-- The claim-ordered rendering of `UnsignedImportTx.Verify`. -/
def importVerifySpec (otx : Option ImportTx) (ctx : Ctx) (rules : Rules) : Except Err Unit :=
  match otx with
  | none => .error .errNilTx
  | some tx => firstFailure (importVerifyChecks tx ctx rules)

/-- The per-output loop of `UnsignedExportTx.Verify`: `out.Verify()` errors
are returned unwrapped, and an output whose asset is not the native asset is
illegal when the destination is the platform chain. -/
def verifyExportOuts (ctx : Ctx) (destinationChain : Nat) :
    List TransferableOutput → Except Err Unit
  | [] => .ok ()
  | o :: rest =>
    match transferableOutputVerify o with
    | .error e => .error e
    | .ok () =>
      if o.assetID != ctx.axcAssetID && destinationChain == platformChainID then
        .error .errWrongChainID
      else verifyExportOuts ctx destinationChain rest

/-- The per-input loop of `UnsignedExportTx.Verify`: `in.Verify()` errors
are returned unwrapped. -/
def verifyExportIns : List EVMInput → Except Err Unit
  | [] => .ok ()
  | i :: rest =>
    match evmInputVerify i with
    | .error e => .error e
    | .ok () => verifyExportIns rest

/-- Model of `UnsignedExportTx.Verify` (src/peer/waiting_handler.go:573-624). -/
def exportTxVerify (otx : Option ExportTx) (ctx : Ctx) (rules : Rules) : Except Err Unit :=
  match otx with
  | none => .error .errNilTx
  | some tx =>
    if tx.exportedOutputs.length == 0 then .error .errNoExportOutputs
    else if tx.networkID != ctx.networkID then .error .errWrongNetworkID
    else if ctx.chainID != tx.blockchainID then .error .errWrongBlockchainID
    else if rules.isApricotPhase5 && !sameAllychain ctx tx.destinationChain then .error .errWrongChainID
    else if !rules.isApricotPhase5 && tx.destinationChain != ctx.swapChainID then .error .errWrongChainID
    else
      match verifyExportIns tx.ins with
      | .error e => .error e
      | .ok () =>
        match verifyExportOuts ctx tx.destinationChain tx.exportedOutputs with
        | .error e => .error e
        | .ok () =>
          if !isSortedTransferableOutputs tx.exportedOutputs then .error .errOutputsNotSorted
          else if rules.isApricotPhase1 && !isSortedAndUniqueEVMInputs tx.ins then
            .error .errInputsNotSortedUnique
          else .ok ()

/-- Modelled from the spec (§4.1): `calcBytesCost` (coreth `tx.go`, not in
src/) is `n × TxBytesGas`, overflow-checked. -/
def calcBytesCost (n : Nat) : Except Err Nat :=
  mul64 n txBytesGas

/-- The input-cost accumulation loop of `UnsignedImportTx.GasUsed`. -/
def sumInputCosts : List TransferableInput → Nat → Except Err Nat
  | [], acc => .ok acc
  | i :: rest, acc =>
    match transferInCost i.input with
    | .error e => .error e
    | .ok c =>
      match add64 acc c with
      | .error e => .error e
      | .ok acc2 => sumInputCosts rest acc2

/-- Model of `UnsignedImportTx.GasUsed` (src/peer/waiting_handler.go:194-216). -/
def importGasUsed (tx : ImportTx) (fixedFee : Bool) : Except Err Nat :=
  match calcBytesCost tx.unsignedBytes.length with
  | .error e => .error e
  | .ok byteCost =>
    match sumInputCosts tx.importedInputs byteCost with
    | .error e => .error e
    | .ok cost =>
      if fixedFee then add64 cost atomicTxBaseCost else .ok cost

/-- Model of `UnsignedExportTx.GasUsed` (src/peer/waiting_handler.go:626-645). -/
def exportGasUsed (tx : ExportTx) (fixedFee : Bool) : Except Err Nat :=
  match calcBytesCost tx.unsignedBytes.length with
  | .error e => .error e
  | .ok byteCost =>
    match mul64 tx.ins.length costPerSignature with
    | .error e => .error e
    | .ok sigCost =>
      match add64 byteCost sigCost with
      | .error e => .error e
      | .ok cost =>
        if fixedFee then add64 cost atomicTxBaseCost else .ok cost

/-- Modelled from the spec: `calculateDynamicFee` (coreth `tx.go`, not in
src/).  Its behavior is pinned by TestImportTxGasCost
(src/plugin/evm/factory.go): fee(1230, 25·10^9) = 30750 and
fee(1230, 1) = 1, i.e. the wei-denominated product `gasUsed × baseFee` is
converted to the native asset's base unit by dividing by `x2cRate = 10^9`,
rounding up; a `nil` base fee is an error, and a result that does not fit
in uint64 is reported as an overflow error. -/
def calculateDynamicFee (gasUsed : Nat) (baseFee : Option Nat) : Except Err Nat :=
  match baseFee with
  | none => .error .errNilBaseFee
  | some b =>
    let fee := (gasUsed * b + (x2cRate - 1)) / x2cRate
    if fee < UINT64LIMIT then .ok fee else .error .errFeeOverflow

/-- Modelled from the spec (§4.2): `avax.FlowChecker` (external to src/)
accumulates produced and consumed amounts per asset.  Totals are kept as
association lists in first-touch order. -/
structure FlowChecker where
  produced : List (Nat × Nat)
  consumed : List (Nat × Nat)
  deriving DecidableEq, Repr

/-- Add `n` to the total of asset `a` in an asset→amount association list. -/
def addAmount : List (Nat × Nat) → Nat → Nat → List (Nat × Nat)
  | [], a, n => [(a, n)]
  | (k, v) :: rest, a, n =>
    if k = a then (k, v + n) :: rest else (k, v) :: addAmount rest a n

/-- Total recorded for asset `a` (0 when absent). -/
def lookupTotal : List (Nat × Nat) → Nat → Nat
  | [], _ => 0
  | (k, v) :: rest, a => if k = a then v else lookupTotal rest a

def FlowChecker.empty : FlowChecker := ⟨[], []⟩

def FlowChecker.produce (fc : FlowChecker) (a n : Nat) : FlowChecker :=
  { fc with produced := addAmount fc.produced a n }

def FlowChecker.consume (fc : FlowChecker) (a n : Nat) : FlowChecker :=
  { fc with consumed := addAmount fc.consumed a n }

/-- Modelled from the spec (§4.2): `FlowChecker.Verify` fails if any checked
addition overflowed uint64 (a running total of uint64 summands reaches
`2^64` exactly when some `math.Add64` overflowed) or if, for some asset,
more is produced than consumed. -/
def FlowChecker.verify (fc : FlowChecker) : Except Err Unit :=
  if fc.produced.any (fun p => UINT64LIMIT ≤ p.2) ||
      fc.consumed.any (fun p => UINT64LIMIT ≤ p.2) then .error .errFlowOverflow
  else if fc.produced.any (fun p => lookupTotal fc.consumed p.1 < p.2) then
    .error .errFlowInsufficientFunds
  else .ok ()

/-- A credential attached to a signed transaction: either a
`secp256k1fx.Credential` holding a list of signatures (signatures modelled
as opaque `Nat`s), or a credential of some other runtime type. -/
inductive Credential where
  | secp (sigs : List Nat)
  | other
  deriving DecidableEq, Repr

/-- A recovered public key: `*crypto.PublicKeySECP256K1R` or another type. -/
inductive PubKeyIntf where
  | secpPK (k : Nat)
  | otherPK (k : Nat)
  deriving DecidableEq, Repr

/-- A UTXO deserialized from shared storage; only the fields the import
path reads (`AssetID()` and the spend condition `Out`, kept opaque). -/
structure UTXO where
  assetID : Nat
  out : Nat
  deriving DecidableEq, Repr

/-- The signed wrapper `Tx` around an `UnsignedImportTx`. -/
structure SignedImportTx where
  tx : ImportTx
  creds : List Credential

/-- The signed wrapper `Tx` around an `UnsignedExportTx`. -/
structure SignedExportTx where
  tx : ExportTx
  creds : List Credential

/-- The `VM` as seen by atomic tx verification: the chain context, the
bootstrap flag, and its external collaborators as oracle functions
(shared cross-chain storage, codec, fx credential verification, the
ancestor conflict scan, and secp256k1 public-key recovery). -/
structure VM where
  ctx : Ctx
  bootstrapped : Bool
  sharedMemoryGet : Nat → List (Nat × Nat) → Except Err (List (List Nat))
  codecUnmarshalUTXO : List Nat → Except Err UTXO
  fxVerifyTransfer : TransferIn → Credential → Nat → Except Err Unit
  conflicts : List (Nat × Nat) → Nat → Bool
  recoverPublicKey : List Nat → Nat → Except Err PubKeyIntf
  publicKeyToEthAddress : Nat → Nat

/-- Model of `InputID()` of a `TransferableInput`: the UTXO key, a deterministic
function of `(txID, outputIndex)` (the opaque hash is modelled by the pair
itself). -/
def TransferableInput.inputID (i : TransferableInput) : Nat × Nat :=
  (i.txID, i.outputIndex)

/-- The fee branch of `UnsignedImportTx.SemanticVerify` (the `switch` at
src/peer/waiting_handler.go:259-275): produce the dynamic fee on the native
asset as of phase 3, the flat fee as of phase 2, and nothing before. -/
def importFeeFC (tx : ImportTx) (native : Nat) (baseFee : Option Nat) (rules : Rules) :
    Except Err FlowChecker :=
  if rules.isApricotPhase3 then
    match importGasUsed tx rules.isApricotPhase5 with
    | .error e => .error e
    | .ok gasUsed =>
      match calculateDynamicFee gasUsed baseFee with
      | .error e => .error e
      | .ok txFee => .ok (FlowChecker.empty.produce native txFee)
  else if rules.isApricotPhase2 then
    .ok (FlowChecker.empty.produce native axiaAtomicTxFee)
  else .ok FlowChecker.empty

/-- The flow checker built by `UnsignedImportTx.SemanticVerify`: the fee,
then every output produced, then every imported input consumed. -/
def importFC (tx : ImportTx) (native : Nat) (baseFee : Option Nat) (rules : Rules) :
    Except Err FlowChecker :=
  match importFeeFC tx native baseFee rules with
  | .error e => .error e
  | .ok fc1 =>
    let fc2 := tx.outs.foldl (fun fc o => fc.produce o.assetID o.amount) fc1
    .ok (tx.importedInputs.foldl (fun fc i => fc.consume i.assetID i.input.amt) fc2)

/-- The per-UTXO loop of `UnsignedImportTx.SemanticVerify`: unmarshal the
stored UTXO, assert asset-ID equality, verify the spend with the supplied
credential (shared memory guarantees one byte string per requested key). -/
def checkImportUTXOs (vm : VM) :
    List TransferableInput → List (List Nat) → List Credential → Except Err Unit
  | [], _, _ => .ok ()
  | _ :: _, [], _ => .ok ()
  | _ :: _, _ :: _, [] => .ok ()
  | i :: ins, b :: bs, c :: cs =>
    match vm.codecUnmarshalUTXO b with
    | .error e => .error (.unmarshalUTXOFailed e)
    | .ok utxo =>
      if utxo.assetID != i.assetID then .error .errAssetIDMismatch
      else
        match vm.fxVerifyTransfer i.input c utxo.out with
        | .error e => .error (.importTxTransferFailed e)
        | .ok () => checkImportUTXOs vm ins bs cs

/-- Model of `UnsignedImportTx.SemanticVerify` (src/peer/waiting_handler.go:246-329).
`parent` is the opaque parent block handed to the conflict scan. -/
def importSemanticVerify (vm : VM) (stx : SignedImportTx) (parent : Nat)
    (baseFee : Option Nat) (rules : Rules) : Except Err Unit :=
  let tx := stx.tx
  match importTxVerify (some tx) vm.ctx rules with
  | .error e => .error e
  | .ok () =>
    match importFC tx vm.ctx.axcAssetID baseFee rules with
    | .error e => .error e
    | .ok fc =>
      match fc.verify with
      | .error e => .error (.importTxFlowCheckFailed e)
      | .ok () =>
        if stx.creds.length != tx.importedInputs.length then
          .error (.credentialCountMismatch tx.importedInputs.length stx.creds.length)
        else if !vm.bootstrapped then
          -- Allow for force committing during bootstrapping
          .ok ()
        else
          let utxoIDs := tx.importedInputs.map TransferableInput.inputID
          match vm.sharedMemoryGet tx.sourceChain utxoIDs with
          | .error e => .error (.fetchUTXOsFailed e)
          | .ok allUTXOBytes =>
            match checkImportUTXOs vm tx.importedInputs allUTXOBytes stx.creds with
            | .error e => .error e
            | .ok () =>
              -- vm.conflicts(tx.InputUTXOs(), parent); InputUTXOs is a set
              if vm.conflicts utxoIDs.eraseDups parent then
                .error .errConflictingAtomicInputs
              else .ok ()

/-- The per-chain mutation request handed to shared storage. -/
structure AtomicRequests where
  removeRequests : List (Nat × Nat)
  putRequests : List ((Nat × Nat) × List Nat)
  deriving DecidableEq, Repr

/-- The UTXO-key accumulation loop of `UnsignedImportTx.AtomicOps`. -/
def buildUTXOIDs : List TransferableInput → List (Nat × Nat)
  | [] => []
  | i :: rest => i.inputID :: buildUTXOIDs rest

/-- Model of `UnsignedImportTx.AtomicOps` (src/peer/waiting_handler.go:336-343). -/
def importAtomicOps (tx : ImportTx) : Except Err (Nat × AtomicRequests) :=
  .ok (tx.sourceChain, { removeRequests := buildUTXOIDs tx.importedInputs, putRequests := [] })

/-- The fee branch of `UnsignedExportTx.SemanticVerify`: dynamic fee as of
phase 3, the flat fee for every earlier phase. -/
def exportFeeFC (tx : ExportTx) (native : Nat) (baseFee : Option Nat) (rules : Rules) :
    Except Err FlowChecker :=
  if rules.isApricotPhase3 then
    match exportGasUsed tx rules.isApricotPhase5 with
    | .error e => .error e
    | .ok gasUsed =>
      match calculateDynamicFee gasUsed baseFee with
      | .error e => .error e
      | .ok txFee => .ok (FlowChecker.empty.produce native txFee)
  else .ok (FlowChecker.empty.produce native axiaAtomicTxFee)

/-- The flow checker built by `UnsignedExportTx.SemanticVerify`. -/
def exportFC (tx : ExportTx) (native : Nat) (baseFee : Option Nat) (rules : Rules) :
    Except Err FlowChecker :=
  match exportFeeFC tx native baseFee rules with
  | .error e => .error e
  | .ok fc1 =>
    let fc2 := tx.exportedOutputs.foldl (fun fc o => fc.produce o.assetID o.amt) fc1
    .ok (tx.ins.foldl (fun fc i => fc.consume i.assetID i.amount) fc2)

/-- The per-input credential loop of `UnsignedExportTx.SemanticVerify`
(src/peer/waiting_handler.go:719-743): each credential must be a
secp256k1fx credential with exactly one signature whose recovered public
key maps to the input's address. -/
def checkExportCreds (vm : VM) (unsignedBytes : List Nat) :
    List (EVMInput × Credential) → Except Err Unit
  | [] => .ok ()
  | (input, cred) :: rest =>
    match cred with
    | .other => .error .expectedSecpCredential
    | .secp sigs =>
      match sigs with
      | [sig] =>
        match vm.recoverPublicKey unsignedBytes sig with
        | .error e => .error e
        | .ok (.otherPK _) => .error .expectedSecpPublicKey
        | .ok (.secpPK k) =>
          if input.address != vm.publicKeyToEthAddress k then
            .error .errPublicKeySignatureMismatch
          else checkExportCreds vm unsignedBytes rest
      | _ => .error (.expectedOneSignature sigs.length)

/-- Model of `UnsignedExportTx.SemanticVerify` (src/peer/waiting_handler.go:675-746). -/
def exportSemanticVerify (vm : VM) (stx : SignedExportTx)
    (baseFee : Option Nat) (rules : Rules) : Except Err Unit :=
  let tx := stx.tx
  match exportTxVerify (some tx) vm.ctx rules with
  | .error e => .error e
  | .ok () =>
    match exportFC tx vm.ctx.axcAssetID baseFee rules with
    | .error e => .error e
    | .ok fc =>
      match fc.verify with
      | .error e => .error (.exportTxFlowCheckFailed e)
      | .ok () =>
        if tx.ins.length != stx.creds.length then
          .error (.credentialCountMismatch tx.ins.length stx.creds.length)
        else checkExportCreds vm tx.unsignedBytes (tx.ins.zip stx.creds)

/-- The account ledger as the export/import state transfer sees it:
native balances (in wei, arbitrary-precision), multi-coin balances keyed by
`(address, assetID)`, and uint64 account nonces. -/
structure StateDB where
  balance : Nat → Nat
  balanceMC : Nat → Nat → Nat
  nonce : Nat → Nat

def StateDB.subBalance (st : StateDB) (a amt : Nat) : StateDB :=
  { st with balance := fun x => if x = a then st.balance a - amt else st.balance x }

def StateDB.subBalanceMC (st : StateDB) (a asset amt : Nat) : StateDB :=
  { st with balanceMC := fun x y =>
      if x = a ∧ y = asset then st.balanceMC a asset - amt else st.balanceMC x y }

def StateDB.setNonce (st : StateDB) (a n : Nat) : StateDB :=
  { st with nonce := fun x => if x = a then n % UINT64LIMIT else st.nonce x }

/-- One iteration of the input loop of `UnsignedExportTx.EVMStateTransfer`:
check the balance, debit it, then check the nonce.  The returned state is
the state at the point of return (Go mutates in place, so a failing
iteration leaves its debit applied). -/
def exportStateStep (ctx : Ctx) (st : StateDB) (i : EVMInput) : StateDB × Option Err :=
  if i.assetID == ctx.axcAssetID then
    let amount := i.amount * x2cRate
    if st.balance i.address < amount then (st, some .errInsufficientFunds)
    else
      let st2 := st.subBalance i.address amount
      if st2.nonce i.address != i.nonce then (st2, some .errInvalidNonce)
      else (st2, none)
  else
    if st.balanceMC i.address i.assetID < i.amount then (st, some .errInsufficientFunds)
    else
      let st2 := st.subBalanceMC i.address i.assetID i.amount
      if st2.nonce i.address != i.nonce then (st2, some .errInvalidNonce)
      else (st2, none)

/-- Record `addrs[from.Address] = from.Nonce` (map insert with overwrite). -/
def insertAddr : List (Nat × Nat) → Nat → Nat → List (Nat × Nat)
  | [], a, n => [(a, n)]
  | (k, v) :: rest, a, n =>
    if k == a then (k, n) :: rest else (k, v) :: insertAddr rest a n

/-- After all inputs are processed, every distinct touched address has its
nonce set to `claimedNonce + 1`. -/
def applyNonces (st : StateDB) : List (Nat × Nat) → StateDB
  | [] => st
  | (a, n) :: rest => applyNonces (st.setNonce a (n + 1)) rest

/-- The input loop of `UnsignedExportTx.EVMStateTransfer`. -/
def exportStateLoop (ctx : Ctx) :
    List EVMInput → StateDB → List (Nat × Nat) → StateDB × Option Err
  | [], st, addrs => (applyNonces st addrs, none)
  | i :: rest, st, addrs =>
    match exportStateStep ctx st i with
    | (st2, some e) => (st2, some e)
    | (st2, none) => exportStateLoop ctx rest st2 (insertAddr addrs i.address i.nonce)

/-- Model of `UnsignedExportTx.EVMStateTransfer` (src/peer/waiting_handler.go:875-905). -/
def exportEVMStateTransfer (ctx : Ctx) (tx : ExportTx) (st : StateDB) :
    StateDB × Option Err :=
  exportStateLoop ctx tx.ins st []

/-! ### Shared helper lemmas -/

theorem buildUTXOIDs_eq_map (l : List TransferableInput) :
    buildUTXOIDs l = l.map TransferableInput.inputID := by
  induction l with
  | nil => rfl
  | cons i rest ih => simp [buildUTXOIDs, ih]

theorem lookupTotal_addAmount (l : List (Nat × Nat)) (a n x : Nat) :
    lookupTotal (addAmount l a n) x =
      if x = a then lookupTotal l x + n else lookupTotal l x := by
  induction l with
  | nil =>
    by_cases h : x = a
    · subst h; simp [addAmount, lookupTotal]
    · simp [addAmount, lookupTotal, h, Ne.symm h]
  | cons p rest ih =>
    obtain ⟨k, v⟩ := p
    by_cases hk : k = a
    · subst hk
      by_cases hx : x = k
      · subst hx; simp [addAmount, lookupTotal]
      · simp [addAmount, lookupTotal, hx, Ne.symm hx]
    · by_cases hx : x = k
      · subst hx
        simp [addAmount, lookupTotal, hk, Ne.symm hk]
      · simp [addAmount, lookupTotal, hk, Ne.symm hx, hx, ih]

/-- Total amount an asset has been produced so far. -/
def producedTotal (fc : FlowChecker) (a : Nat) : Nat := lookupTotal fc.produced a

/-- Total amount an asset has been consumed so far. -/
def consumedTotal (fc : FlowChecker) (a : Nat) : Nat := lookupTotal fc.consumed a

theorem foldl_produce_producedTotal {α : Type} (key amt : α → Nat) (xs : List α)
    (fc : FlowChecker) (a : Nat) :
    producedTotal (xs.foldl (fun fc o => fc.produce (key o) (amt o)) fc) a =
      producedTotal fc a + ((xs.filter (fun o => key o == a)).map amt).sum := by
  induction xs generalizing fc with
  | nil => simp
  | cons o rest ih =>
    rw [List.foldl_cons, ih]
    by_cases h : key o = a
    · simp [producedTotal, FlowChecker.produce, lookupTotal_addAmount, h, List.filter_cons]
      omega
    · simp [producedTotal, FlowChecker.produce, lookupTotal_addAmount, h, Ne.symm h,
        List.filter_cons]

theorem foldl_produce_consumed {α : Type} (key amt : α → Nat) (xs : List α)
    (fc : FlowChecker) :
    (xs.foldl (fun fc o => fc.produce (key o) (amt o)) fc).consumed = fc.consumed := by
  induction xs generalizing fc with
  | nil => rfl
  | cons o rest ih => rw [List.foldl_cons, ih]; rfl

theorem foldl_consume_consumedTotal {α : Type} (key amt : α → Nat) (xs : List α)
    (fc : FlowChecker) (a : Nat) :
    consumedTotal (xs.foldl (fun fc o => fc.consume (key o) (amt o)) fc) a =
      consumedTotal fc a + ((xs.filter (fun o => key o == a)).map amt).sum := by
  induction xs generalizing fc with
  | nil => simp
  | cons o rest ih =>
    rw [List.foldl_cons, ih]
    by_cases h : key o = a
    · simp [consumedTotal, FlowChecker.consume, lookupTotal_addAmount, h, List.filter_cons]
      omega
    · simp [consumedTotal, FlowChecker.consume, lookupTotal_addAmount, h, Ne.symm h,
        List.filter_cons]

theorem foldl_consume_produced {α : Type} (key amt : α → Nat) (xs : List α)
    (fc : FlowChecker) :
    (xs.foldl (fun fc o => fc.consume (key o) (amt o)) fc).produced = fc.produced := by
  induction xs generalizing fc with
  | nil => rfl
  | cons o rest ih => rw [List.foldl_cons, ih]; rfl

theorem addAmount_keys (l : List (Nat × Nat)) (a n : Nat) :
    (addAmount l a n).map Prod.fst =
      if a ∈ l.map Prod.fst then l.map Prod.fst else l.map Prod.fst ++ [a] := by
  induction l with
  | nil => simp [addAmount]
  | cons p rest ih =>
    obtain ⟨k, v⟩ := p
    by_cases hk : k = a
    · subst hk; simp [addAmount]
    · by_cases hm : a ∈ rest.map Prod.fst <;>
        simp [addAmount, hk, Ne.symm hk, ih, hm]

theorem addAmount_keys_nodup (l : List (Nat × Nat)) (a n : Nat)
    (h : (l.map Prod.fst).Nodup) : ((addAmount l a n).map Prod.fst).Nodup := by
  rw [addAmount_keys]
  by_cases hm : a ∈ l.map Prod.fst
  · simpa [hm] using h
  · rw [if_neg hm]
    refine List.Nodup.append h (List.nodup_singleton a) ?_
    intro x hx hx2
    simp only [List.mem_singleton] at hx2
    exact hm (hx2 ▸ hx)

/-- Entry values of a key-unique association list agree with `lookupTotal`. -/
theorem mem_lookupTotal (l : List (Nat × Nat)) (h : (l.map Prod.fst).Nodup)
    (p : Nat × Nat) (hp : p ∈ l) : lookupTotal l p.1 = p.2 := by
  induction l with
  | nil => simp at hp
  | cons q rest ih =>
    obtain ⟨k, v⟩ := q
    simp only [List.map_cons, List.nodup_cons] at h
    rcases List.mem_cons.mp hp with hq | hq
    · subst hq; simp [lookupTotal]
    · have hk : k ≠ p.1 := by
        intro hkp
        exact h.1 (hkp ▸ List.mem_map_of_mem Prod.fst hq)
      simp [lookupTotal, hk, ih h.2 hq]

theorem lookupTotal_eq_zero_of_not_mem (l : List (Nat × Nat)) (a : Nat)
    (hm : a ∉ l.map Prod.fst) : lookupTotal l a = 0 := by
  induction l with
  | nil => rfl
  | cons q rest ih =>
    simp only [List.map_cons, List.mem_cons, not_or] at hm
    have hq : q.1 ≠ a := fun h => hm.1 h.symm
    obtain ⟨k, v⟩ := q
    simp only [lookupTotal]
    rw [if_neg hq]
    exact ih hm.2

/-- Characterization of `FlowChecker.verify` for key-unique books: it
succeeds exactly when no total overflowed uint64 and every asset's produced
total is at most its consumed total. -/
theorem flowVerify_ok_iff (fc : FlowChecker)
    (hp : (fc.produced.map Prod.fst).Nodup) :
    fc.verify = .ok () ↔
      ((∀ p ∈ fc.produced, p.2 < UINT64LIMIT) ∧
       (∀ c ∈ fc.consumed, c.2 < UINT64LIMIT) ∧
       ∀ a, producedTotal fc a ≤ consumedTotal fc a) := by
  constructor
  · intro h
    unfold FlowChecker.verify at h
    by_cases h1 : fc.produced.any (fun p => UINT64LIMIT ≤ p.2) ||
        fc.consumed.any (fun p => UINT64LIMIT ≤ p.2)
    · simp [h1] at h
    · rw [if_neg (by simpa using h1)] at h
      by_cases h2 : fc.produced.any (fun p => lookupTotal fc.consumed p.1 < p.2)
      · simp [h2] at h
      · simp only [Bool.or_eq_true, List.any_eq_true, not_or, not_exists, not_and,
          decide_eq_true_eq, Nat.not_le] at h1
        simp only [List.any_eq_true, not_exists, not_and, decide_eq_true_eq, Nat.not_lt] at h2
        refine ⟨fun p hp2 => h1.1 p hp2, fun c hc => h1.2 c hc, fun a => ?_⟩
        by_cases hm : a ∈ fc.produced.map Prod.fst
        · obtain ⟨p, hpm, hpa⟩ := List.mem_map.mp hm
          have hb := h2 p hpm
          have hv := mem_lookupTotal fc.produced hp p hpm
          simp only [producedTotal, consumedTotal]
          rw [← hpa, hv]
          exact hb
        · simp only [producedTotal, consumedTotal]
          rw [lookupTotal_eq_zero_of_not_mem fc.produced a hm]
          exact Nat.zero_le _
  · rintro ⟨h1, h2, h3⟩
    unfold FlowChecker.verify
    rw [if_neg, if_neg]
    · simp only [List.any_eq_true, not_exists, not_and, decide_eq_true_eq, Nat.not_lt]
      intro p hpm
      have hv := mem_lookupTotal fc.produced hp p hpm
      have := h3 p.1
      simp only [producedTotal, consumedTotal] at this
      rw [hv] at this
      exact this
    · simp only [Bool.or_eq_true, List.any_eq_true, not_or, not_exists, not_and,
        decide_eq_true_eq, Nat.not_le]
      exact ⟨fun p hpm => h1 p hpm, fun c hc => h2 c hc⟩

/-- The fee the spec requires semantic verification to charge (§4.6, §4.1):
the dynamic fee computed from the transaction's own gas-used while the
dynamic-fee phase (phase 3) is active, the flat phase-specific protocol
constant otherwise (the flat fee as of phase 2, zero before). -/
def requiredImportFeeSpec (tx : ImportTx) (baseFee : Option Nat) (rules : Rules) :
    Except Err Nat :=
  if rules.isApricotPhase3 then
    match importGasUsed tx rules.isApricotPhase5 with
    | .error e => .error e
    | .ok g => calculateDynamicFee g baseFee
  else if rules.isApricotPhase2 then .ok axiaAtomicTxFee
  else .ok 0

/-- The per-asset produced book the spec prescribes for an import: the
required fee on the native asset plus every declared output amount. -/
def importProducedSpec (tx : ImportTx) (fee native a : Nat) : Nat :=
  (if a = native then fee else 0) +
    ((tx.outs.filter (fun o => o.assetID == a)).map (fun o => o.amount)).sum

/-- The per-asset consumed book the spec prescribes for an import: every
declared imported-input amount. -/
def importConsumedSpec (tx : ImportTx) (a : Nat) : Nat :=
  ((tx.importedInputs.filter (fun i => i.assetID == a)).map (fun i => i.input.amt)).sum

theorem producedTotal_single (native f a : Nat) :
    producedTotal (FlowChecker.empty.produce native f) a =
      if a = native then f else 0 := by
  by_cases ha : a = native
  · subst ha
    simp [producedTotal, FlowChecker.empty, FlowChecker.produce, addAmount, lookupTotal]
  · simp [producedTotal, FlowChecker.empty, FlowChecker.produce, addAmount, lookupTotal,
      ha, Ne.symm ha]

theorem single_keys_nodup (native f : Nat) :
    (((FlowChecker.empty.produce native f).produced).map Prod.fst).Nodup := by
  simp [FlowChecker.empty, FlowChecker.produce, addAmount]

theorem outsProduce_producedTotal (xs : List EVMOutput) (fc : FlowChecker) (a : Nat) :
    producedTotal (xs.foldl (fun fc o => fc.produce o.assetID o.amount) fc) a =
      producedTotal fc a +
        ((xs.filter (fun o => o.assetID == a)).map (fun o => o.amount)).sum :=
  foldl_produce_producedTotal (fun o => o.assetID) (fun o => o.amount) xs fc a

theorem outsProduce_consumed (xs : List EVMOutput) (fc : FlowChecker) :
    (xs.foldl (fun fc o => fc.produce o.assetID o.amount) fc).consumed = fc.consumed :=
  foldl_produce_consumed (fun o => o.assetID) (fun o => o.amount) xs fc

theorem insConsume_consumedTotal (xs : List TransferableInput) (fc : FlowChecker) (a : Nat) :
    consumedTotal (xs.foldl (fun fc i => fc.consume i.assetID i.input.amt) fc) a =
      consumedTotal fc a +
        ((xs.filter (fun i => i.assetID == a)).map (fun i => i.input.amt)).sum :=
  foldl_consume_consumedTotal (fun i => i.assetID) (fun i => i.input.amt) xs fc a

theorem insConsume_produced (xs : List TransferableInput) (fc : FlowChecker) :
    (xs.foldl (fun fc i => fc.consume i.assetID i.input.amt) fc).produced = fc.produced :=
  foldl_consume_produced (fun i => i.assetID) (fun i => i.input.amt) xs fc

theorem outsProduce_keys_nodup (xs : List EVMOutput) (fc : FlowChecker)
    (h : ((fc.produced).map Prod.fst).Nodup) :
    (((xs.foldl (fun fc o => fc.produce o.assetID o.amount) fc).produced).map Prod.fst).Nodup := by
  induction xs generalizing fc with
  | nil => simpa using h
  | cons o rest ih =>
    rw [List.foldl_cons]
    exact ih _ (addAmount_keys_nodup _ _ _ h)

theorem importFeeFC_spec (tx : ImportTx) (native : Nat) (baseFee : Option Nat)
    (rules : Rules) (f : Nat)
    (hfee : requiredImportFeeSpec tx baseFee rules = .ok f) :
    ∃ fc1, importFeeFC tx native baseFee rules = .ok fc1 ∧
      (∀ a, producedTotal fc1 a = if a = native then f else 0) ∧
      fc1.consumed = [] ∧ (fc1.produced.map Prod.fst).Nodup := by
  unfold importFeeFC
  unfold requiredImportFeeSpec at hfee
  by_cases h3 : rules.isApricotPhase3
  · rw [if_pos h3] at hfee ⊢
    cases hg : importGasUsed tx rules.isApricotPhase5 with
    | error e => simp [hg] at hfee
    | ok g =>
      simp only [hg] at hfee ⊢
      simp only [hfee]
      exact ⟨_, rfl, producedTotal_single native f, rfl, single_keys_nodup native f⟩
  · rw [if_neg h3] at hfee ⊢
    by_cases h2 : rules.isApricotPhase2
    · rw [if_pos h2] at hfee ⊢
      simp only [Except.ok.injEq] at hfee
      subst hfee
      exact ⟨_, rfl, producedTotal_single native _, rfl, single_keys_nodup native _⟩
    · rw [if_neg h2] at hfee ⊢
      simp only [Except.ok.injEq] at hfee
      subst hfee
      refine ⟨FlowChecker.empty, rfl, fun a => ?_, rfl, by simp [FlowChecker.empty]⟩
      simp [producedTotal, FlowChecker.empty, lookupTotal]

theorem importFC_totals (tx : ImportTx) (native : Nat) (baseFee : Option Nat)
    (rules : Rules) (f : Nat) (fc : FlowChecker)
    (hfee : requiredImportFeeSpec tx baseFee rules = .ok f)
    (hfc : importFC tx native baseFee rules = .ok fc) :
    (∀ a, producedTotal fc a = importProducedSpec tx f native a) ∧
    (∀ a, consumedTotal fc a = importConsumedSpec tx a) ∧
    (fc.produced.map Prod.fst).Nodup := by
  obtain ⟨fc1, hfc1eq, hfc1prod, hfc1cons, hfc1nodup⟩ :=
    importFeeFC_spec tx native baseFee rules f hfee
  unfold importFC at hfc
  rw [hfc1eq] at hfc
  simp only [Except.ok.injEq] at hfc
  subst hfc
  refine ⟨fun a => ?_, fun a => ?_, ?_⟩
  · rw [show producedTotal (tx.importedInputs.foldl
        (fun fc i => fc.consume i.assetID i.input.amt)
        (tx.outs.foldl (fun fc o => fc.produce o.assetID o.amount) fc1)) a =
        producedTotal (tx.outs.foldl (fun fc o => fc.produce o.assetID o.amount) fc1) a from by
      simp only [producedTotal, insConsume_produced]]
    rw [outsProduce_producedTotal, hfc1prod a]
    rfl
  · rw [insConsume_consumedTotal]
    rw [show consumedTotal (tx.outs.foldl (fun fc o => fc.produce o.assetID o.amount) fc1) a
        = 0 from by simp only [consumedTotal, outsProduce_consumed, hfc1cons, lookupTotal]]
    simp [importConsumedSpec]
  · rw [show (tx.importedInputs.foldl (fun fc i => fc.consume i.assetID i.input.amt)
        (tx.outs.foldl (fun fc o => fc.produce o.assetID o.amount) fc1)).produced =
        (tx.outs.foldl (fun fc o => fc.produce o.assetID o.amount) fc1).produced from
      insConsume_produced _ _]
    exact outsProduce_keys_nodup tx.outs fc1 hfc1nodup

/-! ### Claim theorems -/

/-- C8: for every export transaction, `GasUsed(fixedFee)` equals the byte
cost of the serialized unsigned transaction plus the number of inputs times
the per-signature cost, plus the fixed atomic base cost exactly when
`fixedFee` is true; every checked multiplication and addition reports
uint64 overflow as an error instead of wrapping (all intermediate values
are bounded by the total, so the computation succeeds exactly when the
total fits in uint64). -/
theorem exportGasUsed_formula (tx : ExportTx) (fixedFee : Bool) :
    exportGasUsed tx fixedFee =
      (if tx.unsignedBytes.length * txBytesGas + tx.ins.length * costPerSignature +
            (if fixedFee then atomicTxBaseCost else 0) < UINT64LIMIT
       then .ok (tx.unsignedBytes.length * txBytesGas + tx.ins.length * costPerSignature +
            (if fixedFee then atomicTxBaseCost else 0))
       else .error .errOverflow) := by
  cases fixedFee <;>
  · unfold exportGasUsed calcBytesCost mul64 add64
    generalize tx.unsignedBytes.length * txBytesGas = x
    generalize tx.ins.length * costPerSignature = y
    by_cases h1 : x < UINT64LIMIT <;> by_cases h2 : y < UINT64LIMIT <;>
      by_cases h3 : x + y < UINT64LIMIT <;>
      by_cases h4 : x + y + atomicTxBaseCost < UINT64LIMIT <;>
      (try simp [h1, h2, h3, h4]) <;> omega

/-- C9: for every import transaction, `AtomicOps` returns the transaction's
source chain paired with a request whose remove list is exactly the UTXO ID
of each imported input in list order, with no put requests and no error. -/
theorem importAtomicOps_spec (tx : ImportTx) :
    importAtomicOps tx =
      .ok (tx.sourceChain,
        { removeRequests := tx.importedInputs.map TransferableInput.inputID,
          putRequests := [] }) := by
  unfold importAtomicOps
  rw [buildUTXOIDs_eq_map]

/-- C4 counterexample: the claim "`calculateDynamicFee(gasUsed, baseFee)`
returns exactly `gasUsed × baseFee`" is false on the code: the repository's
own TestImportTxGasCost expects fee 30750 (not 1230 × 25·10^9) at
gasUsed = 1230, baseFee = 25·10^9, and fee 1 (not 1230) at baseFee = 1;
the modelled `calculateDynamicFee` reproduces the test's expectations. -/
theorem calculateDynamicFee_claim_false :
    calculateDynamicFee 1230 (some (25 * 10 ^ 9)) = .ok 30750 ∧
    (30750 : Nat) ≠ 1230 * (25 * 10 ^ 9) ∧
    calculateDynamicFee 1230 (some 1) = .ok 1 ∧
    (1 : Nat) ≠ 1230 * 1 := by
  refine ⟨?_, by norm_num, ?_, by norm_num⟩ <;> rfl

/-- C4 (amended): `calculateDynamicFee(gasUsed, baseFee)` is the
wei-to-nAXC conversion of the product — the least `f` with
`gasUsed × baseFee ≤ x2cRate × f` (i.e. `⌈gasUsed × baseFee / 10^9⌉`) —
computed in arbitrary precision, with a `nil` base fee and a result
exceeding the uint64 range each reported as an error rather than wrapped;
it reproduces every fee vector of TestImportTxGasCost. -/
theorem calculateDynamicFee_amended :
    (∀ g b f : Nat, calculateDynamicFee g (some b) = .ok f →
        x2cRate * f < g * b + x2cRate ∧ g * b ≤ x2cRate * f ∧ f < UINT64LIMIT) ∧
    calculateDynamicFee 1230 none = .error .errNilBaseFee ∧
    calculateDynamicFee 1230 (some (25 * 10 ^ 9)) = .ok 30750 ∧
    calculateDynamicFee 11230 (some 1) = .ok 1 ∧
    calculateDynamicFee 2318 (some (25 * 10 ^ 9)) = .ok 57950 ∧
    calculateDynamicFee 2378 (some (25 * 10 ^ 9)) = .ok 59450 ∧
    calculateDynamicFee 2234 (some (25 * 10 ^ 9)) = .ok 55850 ∧
    calculateDynamicFee 11022 (some (25 * 10 ^ 9)) = .ok 275550 := by
  refine ⟨?_, rfl, rfl, rfl, rfl, rfl, rfl, rfl⟩
  intro g b f h
  unfold calculateDynamicFee at h
  dsimp only at h
  by_cases hlt : (g * b + (x2cRate - 1)) / x2cRate < UINT64LIMIT
  · rw [if_pos hlt] at h
    simp only [Except.ok.injEq] at h
    subst h
    have h1 := Nat.div_add_mod (g * b + (x2cRate - 1)) x2cRate
    have h2 : (g * b + (x2cRate - 1)) % x2cRate < x2cRate :=
      Nat.mod_lt _ (by norm_num [x2cRate])
    simp only [x2cRate, UINT64LIMIT] at *
    generalize g * b = p at *
    omega
  · rw [if_neg hlt] at h
    simp at h

/-- C4 (amended) witness at the first TestImportTxGasCost vector. -/
theorem calculateDynamicFee_amended_witness :
    x2cRate * 30750 < 1230 * (25 * 10 ^ 9) + x2cRate ∧
    1230 * (25 * 10 ^ 9) ≤ x2cRate * 30750 ∧ 30750 < UINT64LIMIT :=
  calculateDynamicFee_amended.1 1230 (25 * 10 ^ 9) 30750 rfl

theorem firstFailure_ok_iff (l : List (Option Err)) :
    firstFailure l = .ok () ↔ ∀ c ∈ l, c = none := by
  induction l with
  | nil => simp [firstFailure]
  | cons c rest ih =>
    cases c with
    | none => simp [firstFailure, ih]
    | some e => simp [firstFailure]

theorem importTxVerify_eq_spec (tx : ImportTx) (ctx : Ctx) (rules : Rules) :
    importTxVerify (some tx) ctx rules = firstFailure (importVerifyChecks tx ctx rules) := by
  unfold importTxVerify importVerifyChecks
  by_cases h1 : tx.importedInputs = []
  · simp [firstFailure, h1]
  by_cases h2 : tx.networkID ≠ ctx.networkID
  · simp [firstFailure, h1, h2]
  by_cases h3 : ctx.chainID ≠ tx.blockchainID
  · simp [firstFailure, h1, h2, h3]
  by_cases h4 : rules.isApricotPhase3 ∧ tx.outs = []
  · simp [firstFailure, h1, h2, h3, h4]
  by_cases h5 : rules.isApricotPhase5 ∧ ¬sameAllychain ctx tx.sourceChain
  · obtain ⟨hp5, hs⟩ := h5
    simp [firstFailure, h1, h2, h3, h4, hp5, hs]
  by_cases h6 : ¬rules.isApricotPhase5 ∧ tx.sourceChain ≠ ctx.swapChainID
  · obtain ⟨hp5, hsw⟩ := h6
    simp [firstFailure, h1, h2, h3, h4, h5, hp5, hsw]
  have hc : (if rules.isApricotPhase5 then
        (if sameAllychain ctx tx.sourceChain then none else some Err.errWrongChainID)
      else
        (if tx.sourceChain = ctx.swapChainID then none else some Err.errWrongChainID)) =
      (none : Option Err) := by
    by_cases hp5 : rules.isApricotPhase5
    · have hs : sameAllychain ctx tx.sourceChain := by
        by_contra hs
        exact h5 ⟨hp5, hs⟩
      simp [hp5, hs]
    · have hsw : tx.sourceChain = ctx.swapChainID := by
        by_contra hsw
        exact h6 ⟨hp5, hsw⟩
      simp [hp5, hsw]
  have hl5 : ¬(rules.isApricotPhase5 = true ∧ sameAllychain ctx tx.sourceChain = false) := by
    rintro ⟨hp, hsf⟩
    exact h5 ⟨hp, by simp [hsf]⟩
  have hl6 : ¬(rules.isApricotPhase5 = false ∧ ¬tx.sourceChain = ctx.swapChainID) := by
    rintro ⟨hp, hsw⟩
    exact h6 ⟨by simp [hp], hsw⟩
  cases ho : verifyImportOuts tx.outs with
  | error e => simp [firstFailure, toCheck, h1, h2, h3, h4, h5, h6, hl5, hl6, hc, ho]
  | ok u =>
    cases u
    cases hi : verifyImportIns tx.importedInputs with
    | error e => simp [firstFailure, toCheck, h1, h2, h3, h4, h5, h6, hl5, hl6, hc, ho, hi]
    | ok u =>
      cases u
      by_cases h7 : isSortedAndUniqueTransferableInputs tx.importedInputs
      · by_cases hp2 : rules.isApricotPhase2
        · by_cases h8 : isSortedAndUniqueEVMOutputs tx.outs
          · simp [firstFailure, toCheck, h1, h2, h3, h4, h5, h6, hl5, hl6, hc, ho, hi, h7, hp2, h8]
          · simp [firstFailure, toCheck, h1, h2, h3, h4, h5, h6, hl5, hl6, hc, ho, hi, h7, hp2, h8]
        · by_cases hp1 : rules.isApricotPhase1
          · by_cases h9 : isSortedEVMOutputs tx.outs
            · simp [firstFailure, toCheck, h1, h2, h3, h4, h5, h6, hl5, hl6, hc, ho, hi, h7, hp2, hp1, h9]
            · simp [firstFailure, toCheck, h1, h2, h3, h4, h5, h6, hl5, hl6, hc, ho, hi, h7, hp2, hp1, h9]
          · simp [firstFailure, toCheck, h1, h2, h3, h4, h5, h6, hl5, hl6, hc, ho, hi, h7, hp2, hp1]
      · simp [firstFailure, toCheck, h1, h2, h3, h4, h5, h6, hl5, hl6, hc, ho, hi, h7]

/-- C2: `UnsignedImportTx.Verify` evaluates its checks in exactly the
claimed order with the first failing check determining the result (it
coincides with the first-failure scan of the spec-ordered check list,
headed by the nil-transaction check); it returns nil exactly when every
applicable check passes, and the named errors of the distinct checks are
pairwise distinct (the per-output and per-input failures are wrapped in
their own distinguishing constructors `evmOutputFailed` /
`atomicInputFailed`). -/
theorem importTxVerify_check_order (otx : Option ImportTx) (ctx : Ctx) (rules : Rules) :
    importTxVerify otx ctx rules = importVerifySpec otx ctx rules ∧
    (importTxVerify otx ctx rules = .ok () ↔
      ∃ tx, otx = some tx ∧ ∀ c ∈ importVerifyChecks tx ctx rules, c = none) ∧
    List.Pairwise (fun a b => a ≠ b)
      [Err.errNilTx, Err.errNoImportInputs, Err.errWrongNetworkID,
       Err.errWrongBlockchainID, Err.errNoEVMOutputs, Err.errWrongChainID,
       Err.errInputsNotSortedUnique, Err.errOutputsNotSortedUnique,
       Err.errOutputsNotSorted] := by
  refine ⟨?_, ?_, by decide⟩
  · cases otx with
    | none => rfl
    | some tx => exact importTxVerify_eq_spec tx ctx rules
  · cases otx with
    | none =>
      constructor
      · intro h
        exact absurd h (by simp [importTxVerify])
      · rintro ⟨tx, htx, h⟩
        cases htx
    | some tx =>
      rw [importTxVerify_eq_spec tx ctx rules, firstFailure_ok_iff]
      constructor
      · intro h
        exact ⟨tx, rfl, h⟩
      · rintro ⟨tx2, htx2, h⟩
        injection htx2 with h2
        subst h2
        exact h

theorem checkImportUTXOs_err_range (vm : VM) (ins : List TransferableInput)
    (bs : List (List Nat)) (cs : List Credential) (e : Err)
    (h : checkImportUTXOs vm ins bs cs = .error e) :
    (∃ x, e = .unmarshalUTXOFailed x) ∨ e = .errAssetIDMismatch ∨
      (∃ x, e = .importTxTransferFailed x) := by
  induction ins generalizing bs cs with
  | nil => simp [checkImportUTXOs] at h
  | cons i ins ih =>
    cases bs with
    | nil => simp [checkImportUTXOs] at h
    | cons b bs =>
      cases cs with
      | nil => simp [checkImportUTXOs] at h
      | cons c cs =>
        unfold checkImportUTXOs at h
        cases hu : vm.codecUnmarshalUTXO b with
        | error x =>
          simp only [hu] at h
          simp at h
          exact Or.inl ⟨x, h.symm⟩
        | ok utxo =>
          simp only [hu] at h
          by_cases ha : (utxo.assetID != i.assetID) = true
          · rw [if_pos ha] at h
            simp at h
            exact Or.inr (Or.inl h.symm)
          · rw [if_neg ha] at h
            cases hv : vm.fxVerifyTransfer i.input c utxo.out with
            | error x =>
              simp only [hv] at h
              simp at h
              exact Or.inr (Or.inr ⟨x, h.symm⟩)
            | ok u =>
              cases u
              simp only [hv] at h
              exact ih bs cs h

/-- C3: on a fresh flow checker, `UnsignedImportTx.SemanticVerify` produces
the required native-asset fee (the dynamic fee from the transaction's own
gas-used and base fee while phase 3 is active, the flat phase-specific
protocol constant otherwise), then produces every declared output amount
and consumes every declared imported-input amount; the flow check succeeds
exactly when every asset's produced book is covered by its consumed book,
and a flow-check failure makes SemanticVerify fail with that failure
wrapped in the import flow-check error (and no other outcome produces that
wrapper). -/
theorem importSemanticVerify_flow (vm : VM) (stx : SignedImportTx) (parent : Nat)
    (baseFee : Option Nat) (rules : Rules) (f : Nat) (fc : FlowChecker)
    (hv : importTxVerify (some stx.tx) vm.ctx rules = .ok ())
    (hfee : requiredImportFeeSpec stx.tx baseFee rules = .ok f)
    (hfc : importFC stx.tx vm.ctx.axcAssetID baseFee rules = .ok fc) :
    (∀ a, producedTotal fc a = importProducedSpec stx.tx f vm.ctx.axcAssetID a) ∧
    (∀ a, consumedTotal fc a = importConsumedSpec stx.tx a) ∧
    ((∀ p ∈ fc.produced, p.2 < UINT64LIMIT) → (∀ c ∈ fc.consumed, c.2 < UINT64LIMIT) →
      (fc.verify = .ok () ↔
        ∀ a, importProducedSpec stx.tx f vm.ctx.axcAssetID a ≤ importConsumedSpec stx.tx a)) ∧
    (∀ e, fc.verify = .error e →
      importSemanticVerify vm stx parent baseFee rules =
        .error (.importTxFlowCheckFailed e)) ∧
    (fc.verify = .ok () →
      ∀ e, importSemanticVerify vm stx parent baseFee rules ≠
        .error (.importTxFlowCheckFailed e)) := by
  obtain ⟨hprod, hcons, hnodup⟩ :=
    importFC_totals stx.tx vm.ctx.axcAssetID baseFee rules f fc hfee hfc
  refine ⟨hprod, hcons, ?_, ?_, ?_⟩
  · intro hb1 hb2
    rw [flowVerify_ok_iff fc hnodup]
    constructor
    · rintro ⟨_, _, h3⟩ a
      rw [← hprod a, ← hcons a]
      exact h3 a
    · intro h3
      exact ⟨hb1, hb2, fun a => by rw [hprod a, hcons a]; exact h3 a⟩
  · intro e he
    unfold importSemanticVerify
    simp only [hv, hfc, he]
  · intro hok e
    unfold importSemanticVerify
    simp only [hv, hfc, hok]
    by_cases hcl : (stx.creds.length != stx.tx.importedInputs.length) = true
    · simp [hcl]
    · rw [if_neg hcl]
      by_cases hbs : (!vm.bootstrapped) = true
      · simp [hbs]
      · rw [if_neg hbs]
        cases hsm : vm.sharedMemoryGet stx.tx.sourceChain
            (stx.tx.importedInputs.map TransferableInput.inputID) with
        | error x => simp [hsm]
        | ok v =>
          simp only [hsm]
          cases hch : checkImportUTXOs vm stx.tx.importedInputs v stx.creds with
          | error x =>
            have hrange := checkImportUTXOs_err_range vm _ _ _ x hch
            simp only [hch]
            rcases hrange with ⟨y, rfl⟩ | rfl | ⟨y, rfl⟩ <;> simp
          | ok u =>
            cases u
            simp only [hch]
            by_cases hcf : vm.conflicts
                ((stx.tx.importedInputs.map TransferableInput.inputID).eraseDups) parent =
                true <;>
              simp [hcf]

def c3ctx : Ctx := ⟨1, 5, 7, 3, []⟩

def c3rules : Rules := ⟨false, false, false, false⟩

def c3tx : ImportTx :=
  { networkID := 1, blockchainID := 5, sourceChain := 7,
    importedInputs := [⟨9, 0, 3, ⟨10, [0]⟩⟩],
    outs := [⟨1, 10, 3⟩], unsignedBytes := [0, 0] }

def c3vm : VM :=
  { ctx := c3ctx, bootstrapped := false,
    sharedMemoryGet := fun _ _ => .error (.external 0),
    codecUnmarshalUTXO := fun _ => .error (.external 0),
    fxVerifyTransfer := fun _ _ _ => .ok (),
    conflicts := fun _ _ => false,
    recoverPublicKey := fun _ _ => .error (.external 0),
    publicKeyToEthAddress := fun k => k }

def c3stx : SignedImportTx := ⟨c3tx, [.secp [0]]⟩

def c3fc : FlowChecker := ⟨[(3, 10)], [(3, 10)]⟩

/-- C3 witness: the flow theorem applied to a concrete phase-0 import. -/
theorem importSemanticVerify_flow_witness :
    (∀ a, producedTotal c3fc a = importProducedSpec c3stx.tx 0 c3vm.ctx.axcAssetID a) ∧
    (∀ a, consumedTotal c3fc a = importConsumedSpec c3stx.tx a) ∧
    ((∀ p ∈ c3fc.produced, p.2 < UINT64LIMIT) →
      (∀ c ∈ c3fc.consumed, c.2 < UINT64LIMIT) →
      (c3fc.verify = .ok () ↔
        ∀ a, importProducedSpec c3stx.tx 0 c3vm.ctx.axcAssetID a ≤
          importConsumedSpec c3stx.tx a)) ∧
    (∀ e, c3fc.verify = .error e →
      importSemanticVerify c3vm c3stx 0 none c3rules =
        .error (.importTxFlowCheckFailed e)) ∧
    (c3fc.verify = .ok () →
      ∀ e, importSemanticVerify c3vm c3stx 0 none c3rules ≠
        .error (.importTxFlowCheckFailed e)) :=
  importSemanticVerify_flow c3vm c3stx 0 none c3rules 0 c3fc rfl rfl rfl

/-- C5: with every check before the output-sort policy passing, the
phase-gated policy of `UnsignedImportTx.Verify` is: no ordering constraint
under the earliest rules; under phase 1 (without phase 2) it fails with the
outputs-not-sorted error exactly when `Outs` is not sorted by the canonical
`(address, assetID)` key (duplicates permitted); under phase 2 it fails
with the outputs-not-sorted-unique error exactly when `Outs` is not
strictly ascending by that key. -/
theorem importVerify_outputSortPolicy (tx : ImportTx) (ctx : Ctx) (rules : Rules)
    (h1 : tx.importedInputs ≠ [])
    (h2 : tx.networkID = ctx.networkID)
    (h3 : ctx.chainID = tx.blockchainID)
    (h4 : rules.isApricotPhase3 = true → tx.outs ≠ [])
    (h5 : rules.isApricotPhase5 = true → sameAllychain ctx tx.sourceChain = true)
    (h6 : rules.isApricotPhase5 = false → tx.sourceChain = ctx.swapChainID)
    (h7 : verifyImportOuts tx.outs = .ok ())
    (h8 : verifyImportIns tx.importedInputs = .ok ())
    (h9 : isSortedAndUniqueTransferableInputs tx.importedInputs = true) :
    ((rules.isApricotPhase1 = false ∧ rules.isApricotPhase2 = false) →
        importTxVerify (some tx) ctx rules = .ok ()) ∧
    ((rules.isApricotPhase1 = true ∧ rules.isApricotPhase2 = false) →
        ((importTxVerify (some tx) ctx rules = .error .errOutputsNotSorted ↔
            isSortedEVMOutputs tx.outs = false) ∧
         (isSortedEVMOutputs tx.outs = true →
            importTxVerify (some tx) ctx rules = .ok ()))) ∧
    (rules.isApricotPhase2 = true →
        ((importTxVerify (some tx) ctx rules = .error .errOutputsNotSortedUnique ↔
            isSortedAndUniqueEVMOutputs tx.outs = false) ∧
         (isSortedAndUniqueEVMOutputs tx.outs = true →
            importTxVerify (some tx) ctx rules = .ok ()))) := by
  have hchain : ¬(rules.isApricotPhase5 = true ∧ ¬sameAllychain ctx tx.sourceChain = true) := by
    rintro ⟨hp, hs⟩
    exact hs (h5 hp)
  have hchain2 : ¬(¬rules.isApricotPhase5 = true ∧ tx.sourceChain ≠ ctx.swapChainID) := by
    rintro ⟨hp, hs⟩
    exact hs (h6 (by simpa using hp))
  have hred : importTxVerify (some tx) ctx rules =
      (if rules.isApricotPhase2 then
        (if ¬isSortedAndUniqueEVMOutputs tx.outs then .error .errOutputsNotSortedUnique
         else .ok ())
       else if rules.isApricotPhase1 then
        (if ¬isSortedEVMOutputs tx.outs then .error .errOutputsNotSorted else .ok ())
       else .ok ()) := by
    have hA : ¬(tx.importedInputs.isEmpty = true) := by simp [h1]
    have hB : ¬(tx.networkID ≠ ctx.networkID) := by simp [h2]
    have hC : ¬(ctx.chainID ≠ tx.blockchainID) := by simp [h3]
    have hD : ¬(rules.isApricotPhase3 = true ∧ tx.outs.isEmpty = true) := by
      rintro ⟨hp3, ho⟩
      exact (h4 hp3) (by simpa using ho)
    have hE : ¬¬(isSortedAndUniqueTransferableInputs tx.importedInputs = true) := by
      simp [h9]
    unfold importTxVerify
    dsimp only
    rw [if_neg hA, if_neg hB, if_neg hC, if_neg hD, if_neg hchain, if_neg hchain2, h7, h8,
        if_neg hE]
  refine ⟨?_, ?_, ?_⟩
  · rintro ⟨hp1, hp2⟩
    rw [hred]
    simp [hp1, hp2]
  · rintro ⟨hp1, hp2⟩
    rw [hred]
    refine ⟨⟨fun h => ?_, fun h => by simp [hp1, hp2, h]⟩, fun hs => by simp [hp1, hp2, hs]⟩
    by_cases hs : isSortedEVMOutputs tx.outs = true
    · simp [hp1, hp2, hs] at h
    · simpa using hs
  · intro hp2
    rw [hred]
    refine ⟨⟨fun h => ?_, fun h => by simp [hp2, h]⟩, fun hs => by simp [hp2, hs]⟩
    by_cases hs : isSortedAndUniqueEVMOutputs tx.outs = true
    · simp [hp2, hs] at h
    · simpa using hs

def c5ctx : Ctx := ⟨1, 5, 7, 3, []⟩

/-- Swapped (descending-address) outputs. -/
def c5txSwapped : ImportTx :=
  { networkID := 1, blockchainID := 5, sourceChain := 7,
    importedInputs := [⟨9, 0, 3, ⟨20, [0]⟩⟩],
    outs := [⟨2, 10, 3⟩, ⟨1, 10, 3⟩], unsignedBytes := [] }

/-- Duplicated outputs. -/
def c5txDup : ImportTx :=
  { networkID := 1, blockchainID := 5, sourceChain := 7,
    importedInputs := [⟨9, 0, 3, ⟨20, [0]⟩⟩],
    outs := [⟨1, 10, 3⟩, ⟨1, 10, 3⟩], unsignedBytes := [] }

/-- C5 witness: swapped outputs pass under phase 0 and fail with the
outputs-not-sorted error under phase 1; duplicated outputs pass under
phase 1 and fail with the outputs-not-sorted-unique error under phase 2. -/
theorem importVerify_outputSortPolicy_witness :
    importTxVerify (some c5txSwapped) c5ctx ⟨false, false, false, false⟩ = .ok () ∧
    importTxVerify (some c5txSwapped) c5ctx ⟨true, false, false, false⟩ =
      .error .errOutputsNotSorted ∧
    importTxVerify (some c5txDup) c5ctx ⟨true, false, false, false⟩ = .ok () ∧
    importTxVerify (some c5txDup) c5ctx ⟨true, true, false, false⟩ =
      .error .errOutputsNotSortedUnique := by
  refine ⟨?_, ?_, ?_, ?_⟩
  · exact (importVerify_outputSortPolicy c5txSwapped c5ctx ⟨false, false, false, false⟩
      (by simp [c5txSwapped]) rfl rfl (fun h => Bool.noConfusion h)
      (fun h => Bool.noConfusion h) (fun _ => rfl) rfl rfl rfl).1 ⟨rfl, rfl⟩
  · exact ((importVerify_outputSortPolicy c5txSwapped c5ctx ⟨true, false, false, false⟩
      (by simp [c5txSwapped]) rfl rfl (fun h => Bool.noConfusion h)
      (fun h => Bool.noConfusion h) (fun _ => rfl) rfl rfl rfl).2.1 ⟨rfl, rfl⟩).1.mpr rfl
  · exact ((importVerify_outputSortPolicy c5txDup c5ctx ⟨true, false, false, false⟩
      (by simp [c5txDup]) rfl rfl (fun h => Bool.noConfusion h)
      (fun h => Bool.noConfusion h) (fun _ => rfl) rfl rfl rfl).2.1 ⟨rfl, rfl⟩).2 rfl
  · exact ((importVerify_outputSortPolicy c5txDup c5ctx ⟨true, true, false, false⟩
      (by simp [c5txDup]) rfl rfl (fun h => Bool.noConfusion h)
      (fun h => Bool.noConfusion h) (fun _ => rfl) rfl rfl rfl).2.2 rfl).1.mpr rfl

theorem verifyExportOuts_platform_native (ctx : Ctx) (outs : List TransferableOutput)
    (h : verifyExportOuts ctx platformChainID outs = .ok ()) :
    ∀ o ∈ outs, o.assetID = ctx.axcAssetID := by
  induction outs with
  | nil => simp
  | cons o rest ih =>
    unfold verifyExportOuts at h
    cases hv : transferableOutputVerify o with
    | error e => simp [hv] at h
    | ok u =>
      cases u
      simp only [hv] at h
      by_cases ha : (o.assetID != ctx.axcAssetID && (platformChainID == platformChainID)) = true
      · rw [if_pos ha] at h
        simp at h
      · rw [if_neg ha] at h
        intro o2 ho2
        rcases List.mem_cons.mp ho2 with rfl | hm
        · simpa using ha
        · exact ih h o2 hm

/-- C7: for every export transaction whose destination is the platform
(staking/governance) chain, a successful `Verify` implies every exported
output's asset is the native asset; equivalently `Verify` fails whenever
some exported output carries a different asset ID. -/
theorem exportVerify_platform_native (tx : ExportTx) (ctx : Ctx) (rules : Rules)
    (hdest : tx.destinationChain = platformChainID) :
    (exportTxVerify (some tx) ctx rules = .ok () →
      ∀ o ∈ tx.exportedOutputs, o.assetID = ctx.axcAssetID) ∧
    ((∃ o ∈ tx.exportedOutputs, o.assetID ≠ ctx.axcAssetID) →
      exportTxVerify (some tx) ctx rules ≠ .ok ()) := by
  have main : exportTxVerify (some tx) ctx rules = .ok () →
      ∀ o ∈ tx.exportedOutputs, o.assetID = ctx.axcAssetID := by
    intro h
    unfold exportTxVerify at h
    dsimp only at h
    by_cases c1 : (tx.exportedOutputs.length == 0) = true
    · rw [if_pos c1] at h
      simp at h
    rw [if_neg c1] at h
    by_cases c2 : (tx.networkID != ctx.networkID) = true
    · rw [if_pos c2] at h
      simp at h
    rw [if_neg c2] at h
    by_cases c3 : (ctx.chainID != tx.blockchainID) = true
    · rw [if_pos c3] at h
      simp at h
    rw [if_neg c3] at h
    by_cases c4 : (rules.isApricotPhase5 && !sameAllychain ctx tx.destinationChain) = true
    · rw [if_pos c4] at h
      simp at h
    rw [if_neg c4] at h
    by_cases c5 : (!rules.isApricotPhase5 && tx.destinationChain != ctx.swapChainID) = true
    · rw [if_pos c5] at h
      simp at h
    rw [if_neg c5] at h
    cases hin : verifyExportIns tx.ins with
    | error e =>
      simp only [hin] at h
      simp at h
    | ok u =>
      cases u
      simp only [hin] at h
      cases ho : verifyExportOuts ctx tx.destinationChain tx.exportedOutputs with
      | error e =>
        simp only [ho] at h
        simp at h
      | ok u2 =>
        cases u2
        rw [hdest] at ho
        exact verifyExportOuts_platform_native ctx tx.exportedOutputs ho
  refine ⟨main, ?_⟩
  rintro ⟨o, ho, hne⟩ hok
  exact hne (main hok o ho)

def c7ctx : Ctx := ⟨1, 5, 7, 3, [0]⟩

def c7rules : Rules := ⟨true, true, true, true⟩

def c7tx : ExportTx :=
  { networkID := 1, blockchainID := 5, destinationChain := 0,
    ins := [], exportedOutputs := [⟨3, 1000000, 0, 1, [8]⟩], unsignedBytes := [] }

/-- C7 witness: a platform-chain export with a single native-asset output
passes `Verify`, and the theorem yields that its output's asset is the
native asset. -/
theorem exportVerify_platform_native_witness :
    c7tx.destinationChain = platformChainID ∧
    exportTxVerify (some c7tx) c7ctx c7rules = .ok () ∧
    TransferableOutput.assetID ⟨3, 1000000, 0, 1, [8]⟩ = c7ctx.axcAssetID :=
  ⟨rfl, rfl,
    (exportVerify_platform_native c7tx c7ctx c7rules rfl).1 rfl
      ⟨3, 1000000, 0, 1, [8]⟩ (by simp [c7tx])⟩

theorem exportStateStep_nonce (ctx : Ctx) (st : StateDB) (i : EVMInput) :
    ((exportStateStep ctx st i).1).nonce = st.nonce := by
  unfold exportStateStep
  dsimp only
  split_ifs <;> rfl

theorem exportStateStep_ok_nonce (ctx : Ctx) (st : StateDB) (i : EVMInput)
    (st2 : StateDB) (h : exportStateStep ctx st i = (st2, none)) :
    st.nonce i.address = i.nonce := by
  unfold exportStateStep at h
  dsimp only at h
  split_ifs at h with h1 h2 h3 h4 h5 <;>
    first
      | simpa [StateDB.subBalance] using h3
      | simpa [StateDB.subBalanceMC] using h5
      | simp at h

theorem exportStateLoop_nonce_of_err (ctx : Ctx) (ins : List EVMInput) (st : StateDB)
    (addrs : List (Nat × Nat)) (e : Err)
    (h : (exportStateLoop ctx ins st addrs).2 = some e) :
    ((exportStateLoop ctx ins st addrs).1).nonce = st.nonce := by
  induction ins generalizing st addrs with
  | nil => simp [exportStateLoop] at h
  | cons i rest ih =>
    unfold exportStateLoop at h ⊢
    cases hs : exportStateStep ctx st i with
    | mk st2 oe =>
      have hstep := exportStateStep_nonce ctx st i
      rw [hs] at hstep
      cases oe with
      | some e2 =>
        simp only [hs] at h ⊢
        simpa using hstep
      | none =>
        simp only [hs] at h ⊢
        rw [ih st2 (insertAddr addrs i.address i.nonce) h]
        simpa using hstep

theorem exportStateLoop_ok_nonces (ctx : Ctx) (ins : List EVMInput) (st : StateDB)
    (addrs : List (Nat × Nat))
    (h : (exportStateLoop ctx ins st addrs).2 = none) :
    ∀ i ∈ ins, st.nonce i.address = i.nonce := by
  induction ins generalizing st addrs with
  | nil => simp
  | cons i rest ih =>
    unfold exportStateLoop at h
    cases hs : exportStateStep ctx st i with
    | mk st2 oe =>
      cases oe with
      | some e2 =>
        simp only [hs] at h
        simp at h
      | none =>
        simp only [hs] at h
        intro j hj
        rcases List.mem_cons.mp hj with rfl | hm
        · exact exportStateStep_ok_nonce ctx st j st2 hs
        · have hstep := exportStateStep_nonce ctx st i
          rw [hs] at hstep
          have := ih st2 (insertAddr addrs i.address i.nonce) h j hm
          rw [← this]
          exact congrFun (by simpa using hstep) j.address |>.symm

/-- C1 (amended): if some input of an export transaction claims a nonce
different from its account's current nonce, `EVMStateTransfer` fails (the
invalid-nonce error when the mismatching input is reached, an
insufficient-funds error if an earlier input already fails its balance
check), and a failing call never updates any account nonce; however the
balances debited before the error — including the mismatching input's own
debit, which the source applies before its nonce check — are not restored
by the call itself. -/
theorem exportStateTransfer_nonceMismatch (ctx : Ctx) (tx : ExportTx) (st : StateDB)
    (hmis : ∃ i ∈ tx.ins, st.nonce i.address ≠ i.nonce) :
    (exportEVMStateTransfer ctx tx st).2 ≠ none ∧
    (∀ e, (exportEVMStateTransfer ctx tx st).2 = some e →
      ∀ a, ((exportEVMStateTransfer ctx tx st).1).nonce a = st.nonce a) := by
  constructor
  · intro hn
    obtain ⟨i, hi, hne⟩ := hmis
    exact hne (exportStateLoop_ok_nonces ctx tx.ins st [] hn i hi)
  · intro e he a
    exact congrFun (exportStateLoop_nonce_of_err ctx tx.ins st [] e he) a

def c1ctx : Ctx := ⟨1, 5, 7, 3, []⟩

def c1tx : ExportTx :=
  { networkID := 1, blockchainID := 5, destinationChain := 7,
    ins := [⟨1, 5, 3, 3⟩], exportedOutputs := [⟨3, 5, 0, 1, [8]⟩], unsignedBytes := [] }

def c1st : StateDB := ⟨fun _ => 100 * 1000000000, fun _ _ => 0, fun _ => 4⟩

/-- C1 counterexample: applying the export state transfer with a stale
nonce (account nonce 4, claimed nonce 3) returns the invalid-nonce error,
but the account's balance HAS been debited by the call (100 Gwei-units
before, 95 after): the debit precedes the nonce check in the source, so the
claim that no balance is mutated by a call returning this error is false. -/
theorem exportStateTransfer_nonceMismatch_counterexample :
    (exportEVMStateTransfer c1ctx c1tx c1st).2 = some .errInvalidNonce ∧
    c1st.balance 1 = 100 * 1000000000 ∧
    ((exportEVMStateTransfer c1ctx c1tx c1st).1).balance 1 = 95 * 1000000000 := by
  refine ⟨rfl, rfl, ?_⟩
  norm_num [exportEVMStateTransfer, exportStateLoop, exportStateStep, c1ctx, c1tx, c1st,
    StateDB.subBalance, x2cRate]

/-- C1 (amended) witness at the counterexample instance. -/
theorem exportStateTransfer_nonceMismatch_witness :
    (exportEVMStateTransfer c1ctx c1tx c1st).2 ≠ none ∧
    (∀ e, (exportEVMStateTransfer c1ctx c1tx c1st).2 = some e →
      ∀ a, ((exportEVMStateTransfer c1ctx c1tx c1st).1).nonce a = c1st.nonce a) :=
  exportStateTransfer_nonceMismatch c1ctx c1tx c1st
    ⟨⟨1, 5, 3, 3⟩, by simp [c1tx], by decide⟩

/-- C6 (amended): while the node has not finished bootstrapping, import
`SemanticVerify` succeeds exactly when the structural checks, the required
fee computation, the flow check, and the input/credential count check pass
— the shared-storage UTXO lookup, the per-UTXO asset-ID and credential
verification, and the ancestor conflict check are all skipped (the
right-hand side mentions none of the external oracles). -/
theorem importSemanticVerify_bootstrap (vm : VM) (stx : SignedImportTx) (parent : Nat)
    (baseFee : Option Nat) (rules : Rules) (hboot : vm.bootstrapped = false) :
    importSemanticVerify vm stx parent baseFee rules = .ok () ↔
      (importTxVerify (some stx.tx) vm.ctx rules = .ok () ∧
       (∃ fc, importFC stx.tx vm.ctx.axcAssetID baseFee rules = .ok fc ∧
          fc.verify = .ok ()) ∧
       stx.creds.length = stx.tx.importedInputs.length) := by
  unfold importSemanticVerify
  dsimp only
  cases hv : importTxVerify (some stx.tx) vm.ctx rules with
  | error e => simp [hv]
  | ok u =>
    cases u
    simp only [hv]
    cases hfc : importFC stx.tx vm.ctx.axcAssetID baseFee rules with
    | error e => simp [hfc]
    | ok fc =>
      simp only [hfc]
      cases hfv : fc.verify with
      | error e => simp [hfv]
      | ok u2 =>
        cases u2
        simp only [hfv]
        by_cases hcl : (stx.creds.length != stx.tx.importedInputs.length) = true
        · rw [if_pos hcl]
          simp only [bne_iff_ne, ne_eq] at hcl
          simp [hv, hfc, hfv, hcl]
        · rw [if_neg hcl]
          rw [if_pos (show (!vm.bootstrapped) = true by simp [hboot])]
          simp only [bne_iff_ne, ne_eq, not_not] at hcl
          simp [hv, hfc, hfv, hcl]

def c6ctx : Ctx := ⟨1, 5, 7, 3, []⟩

def c6rules : Rules := ⟨false, false, false, false⟩

def c6tx : ImportTx :=
  { networkID := 1, blockchainID := 5, sourceChain := 7,
    importedInputs := [⟨9, 0, 3, ⟨10, [0]⟩⟩],
    outs := [⟨1, 10, 3⟩], unsignedBytes := [0, 0] }

def c6vm : VM :=
  { ctx := c6ctx, bootstrapped := false,
    sharedMemoryGet := fun _ _ => .error (.external 0),
    codecUnmarshalUTXO := fun _ => .error (.external 0),
    fxVerifyTransfer := fun _ _ _ => .ok (),
    conflicts := fun _ _ => false,
    recoverPublicKey := fun _ _ => .error (.external 0),
    publicKeyToEthAddress := fun k => k }

/-- The same import with no credentials attached. -/
def c6stxNoCreds : SignedImportTx := ⟨c6tx, []⟩

/-- The same import with its one matching credential. -/
def c6stxOneCred : SignedImportTx := ⟨c6tx, [.secp [0]]⟩

/-- C6 counterexample: while bootstrapping, an import whose structural and
flow checks pass but that carries no credentials is NOT force-accepted —
`SemanticVerify` returns the input/credential count mismatch error, which
the source checks before the bootstrap early return.  So "returns nil as
soon as the structural and flow checks pass" is false as stated. -/
theorem importSemanticVerify_bootstrap_counterexample :
    importTxVerify (some c6tx) c6vm.ctx c6rules = .ok () ∧
    importFC c6tx c6vm.ctx.axcAssetID none c6rules = .ok ⟨[(3, 10)], [(3, 10)]⟩ ∧
    FlowChecker.verify ⟨[(3, 10)], [(3, 10)]⟩ = .ok () ∧
    c6vm.bootstrapped = false ∧
    importSemanticVerify c6vm c6stxNoCreds 0 none c6rules =
      .error (.credentialCountMismatch 1 0) :=
  ⟨rfl, rfl, rfl, rfl, rfl⟩

/-- C6 (amended) witness: with the credential count matching, the same
bootstrapping import is force-accepted. -/
theorem importSemanticVerify_bootstrap_witness :
    importSemanticVerify c6vm c6stxOneCred 0 none c6rules = .ok () :=
  (importSemanticVerify_bootstrap c6vm c6stxOneCred 0 none c6rules rfl).mpr
    ⟨rfl, ⟨⟨[(3, 10)], [(3, 10)]⟩, rfl, rfl⟩, rfl⟩

theorem checkExportCreds_ok (vm : VM) (ub : List Nat)
    (pairs : List (EVMInput × Credential))
    (h : checkExportCreds vm ub pairs = .ok ()) :
    ∀ p ∈ pairs, ∃ sig pk, p.2 = Credential.secp [sig] ∧
      vm.recoverPublicKey ub sig = .ok (.secpPK pk) ∧
      p.1.address = vm.publicKeyToEthAddress pk := by
  induction pairs with
  | nil => simp
  | cons p rest ih =>
    obtain ⟨input, cred⟩ := p
    unfold checkExportCreds at h
    cases cred with
    | other => simp at h
    | secp sigs =>
      match sigs, h with
      | [], h => simp at h
      | s :: s2 :: stail, h => simp at h
      | [s], h =>
        cases hr : vm.recoverPublicKey ub s with
        | error e =>
          simp only [hr] at h
          simp at h
        | ok pk =>
          cases pk with
          | otherPK k =>
            simp only [hr] at h
            simp at h
          | secpPK k =>
            simp only [hr] at h
            by_cases haddr : (input.address != vm.publicKeyToEthAddress k) = true
            · rw [if_pos haddr] at h
              simp at h
            · rw [if_neg haddr] at h
              intro q hq
              rcases List.mem_cons.mp hq with rfl | hm
              · exact ⟨s, k, rfl, hr, by simpa using haddr⟩
              · exact ih h q hm

/-- C10: a successful export `SemanticVerify` implies the credential count
equals the input count and every (input, credential) pair satisfies: the
credential is a secp256k1 credential holding exactly one signature, and the
public key recovered from that signature over the unsigned bytes maps to
the input's address — so a credential of another type, or with zero or two
or more signatures (a threshold spend), or recovering to a different
address, is rejected. -/
theorem exportSemanticVerify_creds (vm : VM) (stx : SignedExportTx)
    (baseFee : Option Nat) (rules : Rules)
    (hok : exportSemanticVerify vm stx baseFee rules = .ok ()) :
    stx.tx.ins.length = stx.creds.length ∧
    ∀ p ∈ stx.tx.ins.zip stx.creds, ∃ sig pk,
      p.2 = Credential.secp [sig] ∧
      vm.recoverPublicKey stx.tx.unsignedBytes sig = .ok (.secpPK pk) ∧
      p.1.address = vm.publicKeyToEthAddress pk := by
  unfold exportSemanticVerify at hok
  cases hv : exportTxVerify (some stx.tx) vm.ctx rules with
  | error e => simp [hv] at hok
  | ok u =>
    cases u
    simp only [hv] at hok
    cases hfc : exportFC stx.tx vm.ctx.axcAssetID baseFee rules with
    | error e => simp [hfc] at hok
    | ok fc =>
      simp only [hfc] at hok
      cases hfv : fc.verify with
      | error e => simp [hfv] at hok
      | ok u2 =>
        cases u2
        simp only [hfv] at hok
        by_cases hcl : (stx.tx.ins.length != stx.creds.length) = true
        · rw [if_pos hcl] at hok
          simp at hok
        · rw [if_neg hcl] at hok
          exact ⟨by simpa using hcl, checkExportCreds_ok vm _ _ hok⟩

def c10ctx : Ctx := ⟨1, 5, 7, 3, []⟩

def c10rules : Rules := ⟨false, false, false, false⟩

def c10tx : ExportTx :=
  { networkID := 1, blockchainID := 5, destinationChain := 7,
    ins := [⟨42, 2000000, 3, 0⟩],
    exportedOutputs := [⟨3, 1000000, 0, 1, [8]⟩], unsignedBytes := [1, 2, 3] }

def c10vm : VM :=
  { ctx := c10ctx, bootstrapped := true,
    sharedMemoryGet := fun _ _ => .error (.external 0),
    codecUnmarshalUTXO := fun _ => .error (.external 0),
    fxVerifyTransfer := fun _ _ _ => .ok (),
    conflicts := fun _ _ => false,
    recoverPublicKey := fun _ s => .ok (.secpPK s),
    publicKeyToEthAddress := fun _ => 42 }

def c10stx : SignedExportTx := ⟨c10tx, [.secp [99]]⟩

/-- C10 witness: the credential theorem applied to a concrete passing
export (one input, one single-signature secp credential recovering to the
input's address). -/
theorem exportSemanticVerify_creds_witness :
    c10stx.tx.ins.length = c10stx.creds.length ∧
    ∀ p ∈ c10stx.tx.ins.zip c10stx.creds, ∃ sig pk,
      p.2 = Credential.secp [sig] ∧
      c10vm.recoverPublicKey c10stx.tx.unsignedBytes sig = .ok (.secpPK pk) ∧
      p.1.address = c10vm.publicKeyToEthAddress pk :=
  exportSemanticVerify_creds c10vm c10stx none c10rules rfl

end Coreth
